import Mathlib

/-!
Verification of the SolidFed asynchronous federated aggregation engine.

This file gives a shallow embedding of the numeric and control-flow core of
the repository:

* `server/aggregation.js` — `federatedAverage` (the merge / FedAvg step);
* `client/privacy.js` — `clipWeights`, `calculateSensitivity`,
  `calculateNoiseScale`, `generateGaussianNoise`, `applyDifferentialPrivacy`,
  `computePrivacyCost`;
* `server/modelService.js` — `ModelService.saveGlobalModel` (bounded retry
  loop with linear backoff) and `ModelService.processUpdate` (fetch-baseline,
  merge, history, persist, backup pipeline).

Model weight values are embedded as exact rationals (`ℚ`) on the aggregation
side — the JS code stores IEEE-754 float32 values, whose rounding is
abstracted away; every concrete example used below is exactly representable —
and as reals (`ℝ`) on the privacy side, where the code uses `Math.sqrt` and
`Math.log`.  JavaScript non-finite propagation (`Infinity` / `NaN`) in the
noise generator is tracked with `Option ℝ`: `none` stands for a non-finite
number.  JavaScript `x || default` on a number-or-undefined option field is
modelled by `jsOrQ` / `jsOrR` (absent and `0` are falsy and replaced by the
default; `NaN` is not modelled, no claim depends on it).
-/

namespace SolidFed

/-! ## Aggregation engine: `federatedAverage` in `server/aggregation.js` -/

/-- Error outcomes of `federatedAverage`.  `noUpdates` models the TypeError
thrown by `updates[0].weights` on an empty update list; `updateSizeMismatch`
models the `Model update i has different size` error thrown by the shape
check loop. -/
inductive AggError where
  | noUpdates
  | updateSizeMismatch
  deriving DecidableEq, Repr

/-- Options object passed to `federatedAverage`.  `currentGlobalModel` is the
decoded baseline buffer or JS `null`; `learningRate` is the possibly-absent
number field subject to the `options.learningRate || 0.1` default;
`isAsyncUpdate` is the boolean flag (its own `|| false` default is the
`Bool` itself). -/
structure AggOptions where
  currentGlobalModel : Option (List ℚ)
  learningRate : Option ℚ
  isAsyncUpdate : Bool

/-- JavaScript `x || d` for a number-or-undefined option field: an absent
value or `0` (both falsy) yield the default `d`. -/
def jsOrQ : Option ℚ → ℚ → ℚ
  | none, d => d
  | some x, d => if x = 0 then d else x

/-- Elementwise accumulation `acc[i] += u[i] / updates.length` over all
updates, at index `i`; in exact arithmetic this is the sum at `i` divided by
the number of updates. -/
def avgAt (us : List (List ℚ)) (i : ℕ) : ℚ :=
  ((us.map (fun u => u.getD i 0)).sum) / (us.length : ℚ)

/-- Plain federated average: the elementwise mean of the updates, as built by
the `aggregatedWeights[i] += update.weights[i] / updates.length` loops. -/
def averageVec (us : List (List ℚ)) (n : ℕ) : List ℚ :=
  (List.range n).map (avgAt us)

/-- Body of `federatedAverage` after the shape check: dispatch on
`currentGlobalModel && isAsyncUpdate`.  A baseline whose length differs from
the update length is dropped with only a console warning (`Using standard
averaging`); a matching baseline is blended elementwise as
`(1 - lr) * global[i] + lr * clientAvg[i]`. -/
def aggregateCore (updates : List (List ℚ)) (n : ℕ) (options : AggOptions) : List ℚ :=
  match options.currentGlobalModel, options.isAsyncUpdate with
  | some globalWeights, true =>
    if globalWeights.length ≠ n then
      averageVec updates n
    else
      (List.range n).map (fun i =>
        (1 - jsOrQ options.learningRate (1/10)) * globalWeights.getD i 0 +
          jsOrQ options.learningRate (1/10) * avgAt updates i)
  | _, _ => averageVec updates n

/-- The `federatedAverage` function of `server/aggregation.js`, on decoded
weight vectors.  An empty update list throws (`updates[0]` is undefined);
vectors of unequal length among the updates throw; otherwise the merge is
total and returns the aggregated vector. -/
def federatedAverage (modelUpdates : List (List ℚ)) (options : AggOptions) :
    Except AggError (List ℚ) :=
  match modelUpdates with
  | [] => Except.error AggError.noUpdates
  | u0 :: rest =>
    if (u0 :: rest).all (fun u => u.length == u0.length) then
      Except.ok (aggregateCore (u0 :: rest) u0.length options)
    else
      Except.error AggError.updateSizeMismatch

/-! ## Persistence: `ModelService.saveGlobalModel` in `server/modelService.js` -/

/-- Outcome of the `saveGlobalModel` retry loop.  `success a ds` means the
loop exited with `success = true` after `a` put attempts, having waited the
delays `ds` (in milliseconds, in order) between attempts; `writeFailure a ds`
means the final attempt failed and the `Failed to save global model` error
was thrown. -/
inductive SaveResult where
  | success (attemptsMade : ℕ) (delaysMs : List ℕ)
  | writeFailure (attemptsMade : ℕ) (delaysMs : List ℕ)
  deriving DecidableEq, Repr

/-- Number of put attempts recorded in a `SaveResult`. -/
def SaveResult.attempts : SaveResult → ℕ
  | SaveResult.success a _ => a
  | SaveResult.writeFailure a _ => a

/-- The `while (attempt < maxRetries && !success)` loop of
`saveGlobalModel`, with the storage collaborator abstracted as
`put : ℕ → Bool` (`put a = true` iff the `a`-th PUT attempt returns an ok
response; a thrown transport error and a non-ok status are both `false`, as
both land in the same catch block).  `fuel` bounds the recursion; calling
with `fuel = maxRetries` and `attempt = 0` simulates the loop exactly, since
each iteration increments `attempt`.  On a failed attempt `a < maxRetries`
the code sleeps `1000 * a` milliseconds and retries; a failure on the last
attempt rethrows. -/
def saveGlobalModelLoop (put : ℕ → Bool) (maxRetries : ℕ) :
    ℕ → ℕ → List ℕ → SaveResult
  | 0, attempt, delays => SaveResult.success attempt delays
  | fuel + 1, attempt, delays =>
    if attempt < maxRetries then
      if put (attempt + 1) then
        SaveResult.success (attempt + 1) delays
      else if attempt + 1 < maxRetries then
        saveGlobalModelLoop put maxRetries fuel (attempt + 1)
          (delays ++ [1000 * (attempt + 1)])
      else
        SaveResult.writeFailure (attempt + 1) delays
    else
      SaveResult.success attempt delays

/-- `ModelService.saveGlobalModel`: the retry loop with the hardcoded
`const maxRetries = 3`, starting from `attempt = 0`. -/
def saveGlobalModel (put : ℕ → Bool) : SaveResult :=
  saveGlobalModelLoop put 3 3 0 []

/-! ## Pipeline: `ModelService.processUpdate` in `server/modelService.js` -/

/-- Result of the baseline fetch `this.session.fetch(globalModelUrl)`:
an ok response carrying the decoded payload (possibly empty), a non-ok
HTTP status, or a thrown transport error. -/
inductive FetchResult where
  | ok (body : List ℚ)
  | httpError (status : ℕ)
  | transportError
  deriving DecidableEq

/-- Baseline resolution in `processUpdate`: `currentGlobalModel` stays
`null` unless the response is ok with a non-empty payload; a non-ok status,
an empty body and a thrown error are all logged and treated as "no existing
global model". -/
def resolveBaseline : FetchResult → Option (List ℚ)
  | FetchResult.ok body => if body.isEmpty then none else some body
  | FetchResult.httpError _ => none
  | FetchResult.transportError => none

/-- Errors that `processUpdate` can propagate to its caller: an error thrown
by the aggregation step, or exhaustion of all persist attempts. -/
inductive ProcErr where
  | aggregationError (e : AggError)
  | storageWriteFailure
  deriving DecidableEq

/-- Observable outcome of one `processUpdate` call: the baseline it used,
whether the aggregation-history (audit) record write was attempted, whether
the local backup write was attempted, and the propagated result (the merged
vector on success).  History and backup writes swallow their own filesystem
errors, so "attempted" is the observable fact. -/
structure ProcessOutcome where
  baseline : Option (List ℚ)
  historyWritten : Bool
  backupWritten : Bool
  result : Except ProcErr (List ℚ)

/-- `ModelService.processUpdate` on a decoded update vector: resolve the
baseline (fail-open), call `aggregateModels` with the single update,
`isAsyncUpdate: true`, `saveHistory: true` and the service learning rate —
which writes the history record before returning — then persist via
`saveGlobalModel` and, only after a successful save, write the local backup.
A write failure after all retries propagates; the history record written
during aggregation is not rolled back. -/
def processUpdate (fetch : FetchResult) (updateData : List ℚ)
    (learningRate : ℚ) (put : ℕ → Bool) : ProcessOutcome :=
  let baseline := resolveBaseline fetch
  match federatedAverage [updateData] ⟨baseline, some learningRate, true⟩ with
  | Except.error e =>
    ⟨baseline, false, false, Except.error (ProcErr.aggregationError e)⟩
  | Except.ok aggregated =>
    match saveGlobalModel put with
    | SaveResult.success _ _ =>
      ⟨baseline, true, true, Except.ok aggregated⟩
    | SaveResult.writeFailure _ _ =>
      ⟨baseline, true, false, Except.error ProcErr.storageWriteFailure⟩

/-! ## Privacy: `client/privacy.js`

Weight values on this side are reals; `Math.sqrt` and `Math.log` become
`Real.sqrt` and `Real.log`.  Non-finite doubles (`Infinity`, `NaN`) produced
by the noise generator are tracked by `Option ℝ`: `none` models a non-finite
number, and `jsLog`, `jsMul`, `jsAdd` implement IEEE-754 propagation: any
operation touching a non-finite operand yields a non-finite result (for the
operand ranges reached here), and `Math.log` at `0` gives `-Infinity`
(non-finite). -/

/-- Options object of `applyDifferentialPrivacy`; every field may be absent
and is subject to a `||` default.  `sampleRate` is only logged by the
function, never used numerically. -/
structure DPOptions where
  epsilon : Option ℝ
  delta : Option ℝ
  l2NormClip : Option ℝ
  sampleRate : Option ℝ

/-- JavaScript `x || d` on a real-or-undefined option field: absent or `0`
yield the default `d`. -/
noncomputable def jsOrR : Option ℝ → ℝ → ℝ
  | none, d => d
  | some x, d => if x = 0 then d else x

/-- The `computeL2Norm` helper: square root of the sum of squared entries. -/
noncomputable def computeL2Norm (v : List ℝ) : ℝ :=
  Real.sqrt ((v.map (fun x => x * x)).sum)

/-- The `clipWeights` function: if the L2 norm exceeds the threshold, scale
every entry by `clipThreshold / l2Norm`; otherwise return the vector
unchanged. -/
noncomputable def clipWeights (weights : List ℝ) (clipThreshold : ℝ) : List ℝ :=
  if computeL2Norm weights > clipThreshold then
    weights.map (fun x => x * (clipThreshold / computeL2Norm weights))
  else
    weights

/-- The `calculateSensitivity` function: sensitivity equals the clipping
threshold. -/
def calculateSensitivity (l2NormClip : ℝ) : ℝ := l2NormClip

/-- The `calculateNoiseScale` function: the analytic Gaussian mechanism
`sqrt(2 * ln(1.25 / delta)) * sensitivity / epsilon`.  (For `delta ≥ 1.25`
the JS code would produce `NaN` where `Real.sqrt` of a negative is `0`; no
claim below evaluates the scale in that regime.) -/
noncomputable def calculateNoiseScale (epsilon delta sensitivity : ℝ) : ℝ :=
  Real.sqrt (2 * Real.log (1.25 / delta)) * sensitivity / epsilon

/-- `Math.log` with finiteness tracking: defined (finite) only on positive
arguments; `Math.log(0) = -Infinity` and `Math.log` of a negative is `NaN`,
both non-finite. -/
noncomputable def jsLog (x : ℝ) : Option ℝ :=
  if 0 < x then some (Real.log x) else none

/-- Multiplication with IEEE non-finite propagation: a product with an
`Infinity` or `NaN` operand is never finite (for the factors arising here;
finite overflow is abstracted away). -/
def jsMul : Option ℝ → Option ℝ → Option ℝ
  | some a, some b => some (a * b)
  | _, _ => none

/-- Addition with IEEE non-finite propagation. -/
def jsAdd : Option ℝ → Option ℝ → Option ℝ
  | some a, some b => some (a + b)
  | _, _ => none

/-- One four-byte draw `crypto.randomBytes(4).readUInt32LE(0) / 0xFFFFFFFF`:
the uniform value for byte value `b`.  `b = 0` gives exactly `0`. -/
noncomputable def drawU (b : ℕ) : ℝ := (b : ℝ) / 4294967295

/-- One Box–Muller iteration of `generateGaussianNoise`, producing the pair
`(radius * cos θ * stdDev, radius * sin θ * stdDev)` from two four-byte
draws.  `radius = sqrt(-2 * log u1)` is finite exactly when `log u1` is
(`u1 ∈ (0, 1]` makes `-2 * log u1 ≥ 0`); there is no guard excluding
`u1 = 0`, where `log` leaves its domain and the radius becomes `Infinity`. -/
noncomputable def boxMullerPair (b1 b2 : ℕ) (stdDev : ℝ) : Option ℝ × Option ℝ :=
  let radius := (jsLog (drawU b1)).map (fun l => Real.sqrt (-2 * l))
  let theta := 2 * Real.pi * drawU b2
  (jsMul (jsMul radius (some (Real.cos theta))) (some stdDev),
   jsMul (jsMul radius (some (Real.sin theta))) (some stdDev))

/-- The `generateGaussianNoise` function over an abstract stream of
four-byte draws `draw : ℕ → ℕ` (the loop consumes draws `2k` and `2k + 1`
for pair `k`; an odd size discards the second half of the final pair). -/
noncomputable def generateGaussianNoise (size : ℕ) (stdDev : ℝ)
    (draw : ℕ → ℕ) : List (Option ℝ) :=
  (List.range size).map (fun i =>
    let p := boxMullerPair (draw (2 * (i / 2))) (draw (2 * (i / 2) + 1)) stdDev
    if i % 2 = 0 then p.1 else p.2)

/-- Error channel for `applyDifferentialPrivacy`.  The specification's
taxonomy names `InvalidParameter`; the `Except` result records whether the
implementation ever raises it. -/
inductive DPError where
  | invalidParameter
  deriving DecidableEq

/-- The `applyDifferentialPrivacy` function on a decoded weight vector:
apply the `||` defaults (epsilon `1.0`, delta `1e-5`, l2NormClip `1.0`),
clip, compute sensitivity and noise scale, generate one noise sample per
entry and add it.  The body contains no parameter check and no throw; the
result is always `ok`. -/
noncomputable def applyDifferentialPrivacy (weights : List ℝ)
    (options : DPOptions) (draw : ℕ → ℕ) : Except DPError (List (Option ℝ)) :=
  let epsilon := jsOrR options.epsilon 1
  let delta := jsOrR options.delta (1 / 100000)
  let l2NormClip := jsOrR options.l2NormClip 1
  let clippedWeights := clipWeights weights l2NormClip
  let sensitivity := calculateSensitivity l2NormClip
  let noiseScale := calculateNoiseScale epsilon delta sensitivity
  let noise := generateGaussianNoise clippedWeights.length noiseScale draw
  Except.ok (List.zipWith (fun w n => jsAdd (some w) n) clippedWeights noise)

/-- The `computePrivacyCost` function: heuristic advanced-composition
estimate `epsilon * sqrt(ln(1/delta) * iterations * sampleRate)`, with
`delta` passed through unchanged. -/
noncomputable def computePrivacyCost (epsilon delta iterations sampleRate : ℝ) :
    ℝ × ℝ :=
  let amplification := Real.sqrt (Real.log (1 / delta) * iterations * sampleRate)
  (epsilon * amplification, delta)

/-! ## Shared lemmas about the aggregation engine -/

/-- Reading a list back off its index range with `getD` reproduces the
list. -/
theorem map_getD_range (u : List ℚ) (d : ℚ) :
    (List.range u.length).map (fun i => u.getD i d) = u := by
  induction u with
  | nil => rfl
  | cons a t ih =>
    rw [List.length_cons, List.range_succ_eq_map, List.map_cons, List.map_map]
    simp only [List.getD_cons_zero, Function.comp_def, List.getD_cons_succ]
    rw [ih]

/-- The elementwise mean of a single update is the update entry itself. -/
theorem avgAt_singleton (u : List ℚ) (i : ℕ) : avgAt [u] i = u.getD i 0 := by
  unfold avgAt
  simp

/-- The plain federated average of a single update is the update itself. -/
theorem averageVec_singleton (u : List ℚ) : averageVec [u] u.length = u := by
  unfold averageVec
  have h : avgAt [u] = fun i => u.getD i 0 := funext (avgAt_singleton u)
  rw [h]
  exact map_getD_range u 0

/-- When all updates share length `n`, the shape check of
`federatedAverage` passes. -/
theorem all_length_eq {us : List (List ℚ)} {u0 : List ℚ} {rest : List (List ℚ)} {n : ℕ}
    (heq : us = u0 :: rest) (hlen : ∀ u ∈ us, u.length = n) :
    (u0 :: rest).all (fun u => u.length == u0.length) = true := by
  subst heq
  rw [List.all_eq_true]
  intro u hu
  rw [beq_iff_eq, hlen u hu, hlen u0 (List.mem_cons_self u0 rest)]

/-- Evaluation of `federatedAverage` on a matching baseline in async mode:
the result blends the baseline and the client mean with the effective
learning rate `jsOrQ lrOpt (1/10)`. -/
theorem fedavg_async_matching (us : List (List ℚ)) (g : List ℚ)
    (lrOpt : Option ℚ) (n : ℕ)
    (hus : us ≠ []) (hlen : ∀ u ∈ us, u.length = n) (hg : g.length = n) :
    federatedAverage us ⟨some g, lrOpt, true⟩ =
      Except.ok ((List.range n).map (fun i =>
        (1 - jsOrQ lrOpt (1/10)) * g.getD i 0 +
          jsOrQ lrOpt (1/10) * avgAt us i)) := by
  obtain ⟨u0, rest, rfl⟩ := List.exists_cons_of_ne_nil hus
  have h0n : u0.length = n := hlen u0 (List.mem_cons_self u0 rest)
  rw [federatedAverage, if_pos (all_length_eq rfl hlen)]
  rw [aggregateCore]
  simp only [h0n, hg, ne_eq, not_true_eq_false, if_false, ite_false]

/-- Evaluation of `federatedAverage` on a mismatched baseline in async mode:
the baseline is dropped and the plain average returned. -/
theorem fedavg_async_mismatch (us : List (List ℚ)) (g : List ℚ)
    (lrOpt : Option ℚ) (n : ℕ)
    (hus : us ≠ []) (hlen : ∀ u ∈ us, u.length = n) (hg : g.length ≠ n) :
    federatedAverage us ⟨some g, lrOpt, true⟩ = Except.ok (averageVec us n) := by
  obtain ⟨u0, rest, rfl⟩ := List.exists_cons_of_ne_nil hus
  have h0n : u0.length = n := hlen u0 (List.mem_cons_self u0 rest)
  rw [federatedAverage, if_pos (all_length_eq rfl hlen)]
  rw [aggregateCore]
  simp only [h0n, ne_eq, hg, not_false_eq_true, if_true, ite_true]

/-- A single update always aggregates successfully, whatever the options. -/
theorem fedavg_singleton_ok (u : List ℚ) (options : AggOptions) :
    ∃ v, federatedAverage [u] options = Except.ok v := by
  refine ⟨aggregateCore [u] u.length options, ?_⟩
  rw [federatedAverage]
  simp

/-- A single update with no baseline aggregates to itself. -/
theorem fedavg_singleton_no_baseline (u : List ℚ) (lrOpt : Option ℚ) (async : Bool) :
    federatedAverage [u] ⟨none, lrOpt, async⟩ = Except.ok u := by
  rw [federatedAverage]
  simp only [List.all_cons, beq_self_eq_true, Bool.and_self, List.all_nil, if_true, ite_true]
  rw [aggregateCore]
  simp only [averageVec_singleton]

/-! ## Claim theorems -/

/-- C1: for every non-empty list of equal-length update vectors, a baseline
vector of that same length, and a learning rate `lr ∈ (0, 1]`, the async
merge returns the vector whose i-th entry is
`(1 - lr) * baseline[i] + lr * avg[i]`, where `avg[i]` is the equally
weighted elementwise mean of the update vectors; in particular
`merge([[2,2]], baseline=[0,0], learningRate=0.5) = [1,1]`. -/
theorem fedavg_ema_claim :
    (∀ (us : List (List ℚ)) (g : List ℚ) (lr : ℚ) (n : ℕ),
      us ≠ [] → (∀ u ∈ us, u.length = n) → g.length = n →
      0 < lr → lr ≤ 1 →
      federatedAverage us ⟨some g, some lr, true⟩ =
        Except.ok ((List.range n).map (fun i =>
          (1 - lr) * g.getD i 0 +
            lr * (((us.map (fun u => u.getD i 0)).sum) / (us.length : ℚ))))) ∧
    federatedAverage [[2, 2]] ⟨some [0, 0], some (1/2), true⟩ = Except.ok [1, 1] := by
  constructor
  · intro us g lr n hus hlen hg h0 _
    have hjs : jsOrQ (some lr) (1/10) = lr := by
      simp [jsOrQ, h0.ne']
    have := fedavg_async_matching us g (some lr) n hus hlen hg
    rw [hjs] at this
    simpa [avgAt] using this
  · norm_num [federatedAverage, aggregateCore, averageVec, avgAt, jsOrQ, List.range_succ]

/-- C1 witness: the general statement applied to the concrete merge
`merge([[2,2]], baseline=[0,0], learningRate=0.5)`. -/
theorem fedavg_ema_claim_witness :
    (0 : ℚ) < 1/2 ∧
    federatedAverage [[2, 2]] ⟨some [0, 0], some (1/2), true⟩ =
      Except.ok ((List.range 2).map (fun i =>
        (1 - (1/2 : ℚ)) * ([(0 : ℚ), 0].getD i 0) +
          (1/2 : ℚ) * ((([[(2 : ℚ), 2]].map (fun u => u.getD i 0)).sum) /
            (([[(2 : ℚ), 2]].length : ℚ)))) ) :=
  ⟨by norm_num,
   fedavg_ema_claim.1 [[2, 2]] [0, 0] (1/2) 2 (by simp)
     (by intro u hu; rw [List.mem_singleton] at hu; subst hu; rfl)
     rfl (by norm_num) (by norm_num)⟩

/-- C3 counterexample: the claim demands that a baseline whose length
differs from the updates make the merge fail with `ShapeMismatch`; instead
`federatedAverage` succeeds — the mismatched baseline `[0]` is silently
ignored and the plain average `[2,2]` of the single update is returned. -/
theorem fedavg_baseline_mismatch_counterexample :
    federatedAverage [[2, 2]] ⟨some [0], some (1/2), true⟩ = Except.ok [2, 2] := by
  norm_num [federatedAverage, aggregateCore, averageVec, avgAt, jsOrQ, List.range_succ]

/-- C3 amended: a baseline of mismatched length is not rejected: the merge
logs a console warning, drops the baseline, and returns the plain
elementwise mean of the updates. -/
theorem fedavg_baseline_mismatch_amended :
    ∀ (us : List (List ℚ)) (g : List ℚ) (lrOpt : Option ℚ) (n : ℕ),
      us ≠ [] → (∀ u ∈ us, u.length = n) → g.length ≠ n →
      federatedAverage us ⟨some g, lrOpt, true⟩ = Except.ok (averageVec us n) :=
  fedavg_async_mismatch

/-- C3 amended witness: the fallback at the concrete mismatched merge. -/
theorem fedavg_baseline_mismatch_amended_witness :
    federatedAverage [[2, 2]] ⟨some [0], some (1/2), true⟩ =
      Except.ok (averageVec [[2, 2]] 2) :=
  fedavg_baseline_mismatch_amended [[2, 2]] [0] (some (1/2)) 2 (by simp)
    (by intro u hu; rw [List.mem_singleton] at hu; subst hu; rfl)
    (by norm_num)

/-- C4 counterexample: with `learningRate = 0` the merge does not return the
baseline unchanged: the falsy `0` is replaced by the default `0.1`, so
`merge([[2,2]], baseline=[0,0], learningRate=0)` returns `[0.2, 0.2]`, not
`[0, 0]`. -/
theorem fedavg_lr_zero_counterexample :
    federatedAverage [[2, 2]] ⟨some [0, 0], some 0, true⟩ = Except.ok [1/5, 1/5] ∧
    (Except.ok [1/5, 1/5] : Except AggError (List ℚ)) ≠ Except.ok [0, 0] := by
  constructor
  · norm_num [federatedAverage, aggregateCore, averageVec, avgAt, jsOrQ, List.range_succ]
  · intro h
    rw [Except.ok.injEq] at h
    norm_num at h

/-- C4 amended: `learningRate = 1` reduces the merge to the plain
elementwise mean of the updates, and `learningRate = 0` is treated as unset
by the JavaScript `||` default — the merge behaves exactly as with the
default rate `0.1`, returning `0.9 * baseline[i] + 0.1 * avg[i]` instead of
the unchanged baseline. -/
theorem fedavg_lr_one_and_zero_amended :
    (∀ (us : List (List ℚ)) (g : List ℚ) (n : ℕ),
      us ≠ [] → (∀ u ∈ us, u.length = n) → g.length = n →
      federatedAverage us ⟨some g, some 1, true⟩ = Except.ok (averageVec us n)) ∧
    (∀ (us : List (List ℚ)) (g : List ℚ) (n : ℕ),
      us ≠ [] → (∀ u ∈ us, u.length = n) → g.length = n →
      federatedAverage us ⟨some g, some 0, true⟩ =
        Except.ok ((List.range n).map (fun i =>
          (1 - (1/10 : ℚ)) * g.getD i 0 + (1/10 : ℚ) * avgAt us i))) := by
  constructor
  · intro us g n hus hlen hg
    have := fedavg_async_matching us g (some 1) n hus hlen hg
    have hjs : jsOrQ (some 1) (1/10) = 1 := by norm_num [jsOrQ]
    rw [hjs] at this
    simpa [averageVec] using this
  · intro us g n hus hlen hg
    have := fedavg_async_matching us g (some 0) n hus hlen hg
    have hjs : jsOrQ (some 0) (1/10) = 1/10 := by norm_num [jsOrQ]
    rwa [hjs] at this

/-- C4 amended witness: both halves at the concrete merge of `[[2,2]]` into
baseline `[0,0]`. -/
theorem fedavg_lr_one_and_zero_amended_witness :
    federatedAverage [[2, 2]] ⟨some [0, 0], some 1, true⟩ =
      Except.ok (averageVec [[2, 2]] 2) ∧
    federatedAverage [[2, 2]] ⟨some [0, 0], some 0, true⟩ =
      Except.ok ((List.range 2).map (fun i =>
        (1 - (1/10 : ℚ)) * ([(0 : ℚ), 0].getD i 0) + (1/10 : ℚ) * avgAt [[2, 2]] i)) :=
  ⟨fedavg_lr_one_and_zero_amended.1 [[2, 2]] [0, 0] 2 (by simp)
    (by intro u hu; rw [List.mem_singleton] at hu; subst hu; rfl) rfl,
   fedavg_lr_one_and_zero_amended.2 [[2, 2]] [0, 0] 2 (by simp)
    (by intro u hu; rw [List.mem_singleton] at hu; subst hu; rfl) rfl⟩

/-! ## Shared lemmas about the persistence coordinator -/

/-- A successful first put ends the retry loop after one attempt and no
waiting. -/
theorem saveGlobalModel_put1 (put : ℕ → Bool) (h1 : put 1 = true) :
    saveGlobalModel put = SaveResult.success 1 [] := by
  simp [saveGlobalModel, saveGlobalModelLoop, h1]

/-- Three consecutive put failures exhaust the retries: the loop waits
1000 ms then 2000 ms and finally throws. -/
theorem saveGlobalModel_allfail (put : ℕ → Bool) (h1 : put 1 = false)
    (h2 : put 2 = false) (h3 : put 3 = false) :
    saveGlobalModel put = SaveResult.writeFailure 3 [1000, 2000] := by
  simp [saveGlobalModel, saveGlobalModelLoop, h1, h2, h3]

/-- C2: the coordinator makes at most `maxRetries = 3` put attempts,
waiting `attempt * 1000` ms after each failed non-final attempt; the first
successful attempt ends the call successfully with no failure surfaced,
and only three failures produce the propagated write failure. -/
theorem saveGlobalModel_retry_claim :
    ∀ put : ℕ → Bool,
      (saveGlobalModel put).attempts ≤ 3 ∧
      (put 1 = true → saveGlobalModel put = SaveResult.success 1 []) ∧
      (put 1 = false → put 2 = true →
        saveGlobalModel put = SaveResult.success 2 [1000]) ∧
      (put 1 = false → put 2 = false → put 3 = true →
        saveGlobalModel put = SaveResult.success 3 [1000, 2000]) ∧
      (put 1 = false → put 2 = false → put 3 = false →
        saveGlobalModel put = SaveResult.writeFailure 3 [1000, 2000]) := by
  intro put
  cases h1 : put 1 <;> cases h2 : put 2 <;> cases h3 : put 3 <;>
    simp [saveGlobalModel, saveGlobalModelLoop, h1, h2, h3, SaveResult.attempts]

/-- C2 witness: the specification's retry scenario — failures on attempts 1
and 2 and success on attempt 3 yield overall success with 3 attempts and
the two linear-backoff waits, no failure surfaced. -/
theorem saveGlobalModel_retry_claim_witness :
    saveGlobalModel (fun a => a == 3) = SaveResult.success 3 [1000, 2000] :=
  (saveGlobalModel_retry_claim (fun a => a == 3)).2.2.2.1 rfl rfl rfl

/-- C6 counterexample: when every persist attempt fails, `processUpdate`
does fail with the write failure, but the audit (aggregation-history)
record has already been written: `aggregateModels` saves it before
`saveGlobalModel` runs, so "no audit record is written" is false. -/
theorem processUpdate_history_counterexample :
    processUpdate (FetchResult.ok [0, 0]) [2, 2] (1/10) (fun _ => false) =
      ⟨some [0, 0], true, false, Except.error ProcErr.storageWriteFailure⟩ := by
  have hb : resolveBaseline (FetchResult.ok [0, 0]) = some [0, 0] := by
    simp [resolveBaseline]
  have hagg : federatedAverage [[2, 2]] ⟨some [0, 0], some (1/10), true⟩ =
      Except.ok [1/5, 1/5] := by
    norm_num [federatedAverage, aggregateCore, averageVec, avgAt, jsOrQ, List.range_succ]
  have hsave : saveGlobalModel (fun _ => false) = SaveResult.writeFailure 3 [1000, 2000] :=
    saveGlobalModel_allfail _ rfl rfl rfl
  rw [processUpdate, hb]
  simp only [hagg, hsave]

/-- C6 amended: when all `maxRetries = 3` persist attempts fail, the call
fails with `StorageWriteFailure` and the local backup is not written, but
the audit (history) record has already been written during aggregation —
it is written whenever aggregation succeeds, regardless of the persist
outcome, not only on overall success. -/
theorem processUpdate_write_failure_amended :
    ∀ (fetch : FetchResult) (updateData : List ℚ) (lr : ℚ) (put : ℕ → Bool),
      put 1 = false → put 2 = false → put 3 = false →
      (processUpdate fetch updateData lr put).result =
          Except.error ProcErr.storageWriteFailure ∧
      (processUpdate fetch updateData lr put).historyWritten = true ∧
      (processUpdate fetch updateData lr put).backupWritten = false := by
  intro fetch updateData lr put h1 h2 h3
  obtain ⟨v, hagg⟩ :=
    fedavg_singleton_ok updateData ⟨resolveBaseline fetch, some lr, true⟩
  have hsave := saveGlobalModel_allfail put h1 h2 h3
  rw [processUpdate]
  simp only [hagg, hsave]
  exact ⟨trivial, trivial, trivial⟩

/-- C6 amended witness: the amended statement at a concrete always-failing
storage collaborator. -/
theorem processUpdate_write_failure_amended_witness :
    (processUpdate (FetchResult.ok [3]) [7] (1/10) (fun _ => false)).result =
        Except.error ProcErr.storageWriteFailure ∧
    (processUpdate (FetchResult.ok [3]) [7] (1/10) (fun _ => false)).historyWritten = true ∧
    (processUpdate (FetchResult.ok [3]) [7] (1/10) (fun _ => false)).backupWritten = false :=
  processUpdate_write_failure_amended (FetchResult.ok [3]) [7] (1/10)
    (fun _ => false) rfl rfl rfl

/-- C8: a baseline fetch that returns a non-success status, an empty
payload, or throws is treated as "no baseline exists yet": all three cases
resolve the baseline to `null`, give the very same outcome, never surface
an aggregation error, and merge the decoded update as a first contribution
(the persisted model is the update itself when the put succeeds). -/
theorem processUpdate_fetch_degrades_claim :
    ∀ (st : ℕ) (updateData : List ℚ) (lr : ℚ) (put : ℕ → Bool),
      resolveBaseline (FetchResult.httpError st) = none ∧
      resolveBaseline FetchResult.transportError = none ∧
      resolveBaseline (FetchResult.ok []) = none ∧
      processUpdate (FetchResult.httpError st) updateData lr put =
        processUpdate FetchResult.transportError updateData lr put ∧
      processUpdate (FetchResult.ok []) updateData lr put =
        processUpdate FetchResult.transportError updateData lr put ∧
      (∀ e, (processUpdate FetchResult.transportError updateData lr put).result ≠
        Except.error (ProcErr.aggregationError e)) ∧
      (put 1 = true →
        (processUpdate FetchResult.transportError updateData lr put).result =
          Except.ok updateData) := by
  intro st updateData lr put
  have hagg : federatedAverage [updateData] ⟨none, some lr, true⟩ =
      Except.ok updateData :=
    fedavg_singleton_no_baseline updateData (some lr) true
  refine ⟨rfl, rfl, by simp [resolveBaseline],
    by simp [processUpdate, resolveBaseline],
    by simp [processUpdate, resolveBaseline], ?_, ?_⟩
  · intro e
    rw [processUpdate]
    simp only [resolveBaseline, hagg]
    cases hsave : saveGlobalModel put <;> simp
  · intro h1
    rw [processUpdate]
    simp only [resolveBaseline, hagg, saveGlobalModel_put1 put h1]

/-- C8 witness: a transport error on the baseline fetch, followed by a
successful persist, stores exactly the submitted update. -/
theorem processUpdate_fetch_degrades_claim_witness :
    (processUpdate FetchResult.transportError [2, 2] (1/10)
      (fun _ => true)).result = Except.ok [2, 2] :=
  (processUpdate_fetch_degrades_claim 404 [2, 2] (1/10) (fun _ => true)).2.2.2.2.2.2 rfl

/-! ## Shared lemmas about the privacy module -/

/-- The L2 norm of `[3, 4]` is `5`. -/
theorem computeL2Norm_34 : computeL2Norm [3, 4] = 5 := by
  unfold computeL2Norm
  norm_num
  rw [show (25 : ℝ) = 5 ^ 2 by norm_num, Real.sqrt_sq (by norm_num : (0 : ℝ) ≤ 5)]

/-- C5 counterexample: the claim demands that an empty weight vector (and
the other invalid-parameter cases) make `applyDifferentialPrivacy` fail
with `InvalidParameter` before any computation; instead the call runs to
completion and returns an (empty) result — the body contains no parameter
validation at all. -/
theorem applyDP_no_invalid_parameter_counterexample :
    applyDifferentialPrivacy [] ⟨some 1, some (1/100000), some 1, none⟩ (fun _ => 0) =
      Except.ok [] := by
  rw [applyDifferentialPrivacy]
  simp [clipWeights, computeL2Norm, generateGaussianNoise]

/-- C5 amended: `applyDifferentialPrivacy` performs no parameter
validation and never fails with `InvalidParameter`: every call — including
with an empty weight vector or out-of-range parameters — returns a result,
and a falsy parameter value (absent or `0`) is silently replaced by its
default (`epsilon` 1.0, `delta` 1e-5, `l2NormClip` 1.0) rather than
rejected, while any other value, such as a negative `epsilon`, is used
as-is. -/
theorem applyDP_no_validation_amended :
    (∀ (weights : List ℝ) (options : DPOptions) (draw : ℕ → ℕ),
      ∃ v, applyDifferentialPrivacy weights options draw = Except.ok v) ∧
    (∀ (weights : List ℝ) (d c s : Option ℝ) (draw : ℕ → ℕ),
      applyDifferentialPrivacy weights ⟨some 0, d, c, s⟩ draw =
        applyDifferentialPrivacy weights ⟨none, d, c, s⟩ draw) ∧
    (∀ (weights : List ℝ) (e c s : Option ℝ) (draw : ℕ → ℕ),
      applyDifferentialPrivacy weights ⟨e, some 0, c, s⟩ draw =
        applyDifferentialPrivacy weights ⟨e, none, c, s⟩ draw) ∧
    (∀ (weights : List ℝ) (e d s : Option ℝ) (draw : ℕ → ℕ),
      applyDifferentialPrivacy weights ⟨e, d, some 0, s⟩ draw =
        applyDifferentialPrivacy weights ⟨e, d, none, s⟩ draw) := by
  refine ⟨fun weights options draw => ⟨_, rfl⟩, ?_, ?_, ?_⟩ <;>
    · intros
      rw [applyDifferentialPrivacy, applyDifferentialPrivacy]
      simp [jsOrR]

/-- C7: for every non-empty weight vector, if its L2 norm exceeds the
clipping threshold every entry is scaled by `clip / norm`, and otherwise
the vector is returned unchanged; in particular `[3, 4]` with
`l2NormClip = 1.0` clips to `[0.6, 0.8]`. -/
theorem clipWeights_claim :
    (∀ (w : List ℝ) (clip : ℝ), w ≠ [] → computeL2Norm w > clip →
      clipWeights w clip = w.map (fun x => x * (clip / computeL2Norm w))) ∧
    (∀ (w : List ℝ) (clip : ℝ), w ≠ [] → computeL2Norm w ≤ clip →
      clipWeights w clip = w) ∧
    clipWeights [3, 4] 1 = [3/5, 4/5] := by
  refine ⟨fun w clip _ h => ?_, fun w clip _ h => ?_, ?_⟩
  · rw [clipWeights, if_pos h]
  · rw [clipWeights, if_neg (not_lt.mpr h)]
  · rw [clipWeights, if_pos (by rw [computeL2Norm_34]; norm_num)]
    rw [computeL2Norm_34]
    norm_num

/-- C7 witness: a below-threshold vector is untouched, and the concrete
clip of `[3, 4]` at threshold 1. -/
theorem clipWeights_claim_witness :
    clipWeights [(0 : ℝ)] 1 = [0] ∧ clipWeights [3, 4] 1 = [3/5, 4/5] :=
  ⟨clipWeights_claim.2.1 [0] 1 (by simp)
    (by norm_num [computeL2Norm, Real.sqrt_zero]),
   clipWeights_claim.2.2⟩

/-- C9: `computePrivacyCost` returns
`(epsilon * sqrt(ln(1/delta) * iterations * sampleRate), delta)` — the
delta unchanged — and for fixed `epsilon > 0`, `delta ∈ (0,1)` and
`sampleRate ∈ (0,1]` the composed epsilon is monotonically non-decreasing
in the iteration count. -/
theorem computePrivacyCost_claim :
    (∀ e d i q : ℝ, computePrivacyCost e d i q =
      (e * Real.sqrt (Real.log (1 / d) * i * q), d)) ∧
    (∀ e d q i1 i2 : ℝ, 0 < e → 0 < d → d < 1 → 0 < q → q ≤ 1 →
      0 ≤ i1 → i1 ≤ i2 →
      (computePrivacyCost e d i1 q).1 ≤ (computePrivacyCost e d i2 q).1) := by
  refine ⟨fun e d i q => rfl, ?_⟩
  intro e d q i1 i2 he hd0 hd1 hq0 _hq1 _hi0 hi12
  have hL : 0 ≤ Real.log (1 / d) :=
    Real.log_nonneg (by rw [le_div_iff₀ hd0]; linarith)
  have harg : Real.log (1 / d) * i1 * q ≤ Real.log (1 / d) * i2 * q := by
    apply mul_le_mul_of_nonneg_right _ hq0.le
    exact mul_le_mul_of_nonneg_left hi12 hL
  have := mul_le_mul_of_nonneg_left (Real.sqrt_le_sqrt harg) he.le
  simpa [computePrivacyCost] using this

/-- C9 witness: monotonicity applied between 1 and 2 iterations at
`epsilon = 1`, `delta = 1/2`, `sampleRate = 1`. -/
theorem computePrivacyCost_claim_witness :
    (0 : ℝ) < 1 ∧ (0 : ℝ) < 1/2 ∧ (1/2 : ℝ) < 1 ∧
    (computePrivacyCost 1 (1/2) 1 1).1 ≤ (computePrivacyCost 1 (1/2) 2 1).1 :=
  ⟨by norm_num, by norm_num, by norm_num,
   computePrivacyCost_claim.2 1 (1/2) 1 1 2 (by norm_num) (by norm_num)
     (by norm_num) (by norm_num) (by norm_num) (by norm_num) (by norm_num)⟩

/-- C10: the Gaussian noise generator is not total over its random stream:
when a four-byte draw is exactly zero, `u1 = 0` and Box–Muller evaluates
`log(0)` (no guard excludes it), so the produced element is non-finite —
and `applyDifferentialPrivacy` then returns a vector containing a
non-finite element. -/
theorem generateGaussianNoise_zero_draw_claim :
    jsLog (drawU 0) = none ∧
    (∀ (size : ℕ) (stdDev : ℝ), 1 ≤ size →
      (generateGaussianNoise size stdDev (fun _ => 0)).getD 0 (some 0) = none) ∧
    applyDifferentialPrivacy [0] ⟨some 1, some (1/100000), some 1, none⟩
      (fun _ => 0) = Except.ok [none] := by
  refine ⟨by simp [jsLog, drawU], fun size stdDev h => ?_, ?_⟩
  · obtain ⟨k, rfl⟩ : ∃ k, size = k + 1 := ⟨size - 1, by omega⟩
    rw [generateGaussianNoise, List.range_succ_eq_map, List.map_cons]
    simp [boxMullerPair, jsLog, drawU, jsMul]
  · rw [applyDifferentialPrivacy]
    have hclip : clipWeights [(0 : ℝ)] (jsOrR (some 1) 1) = [0] := by
      rw [clipWeights]
      rw [if_neg]
      rw [computeL2Norm]
      norm_num [jsOrR]
    rw [hclip]
    simp [generateGaussianNoise, boxMullerPair, jsLog, drawU, jsMul, jsAdd,
      List.range_succ]

/-- C10 witness: the non-finite head element at a concrete size and noise
scale. -/
theorem generateGaussianNoise_zero_draw_claim_witness :
    (generateGaussianNoise 2 5 (fun _ => 0)).getD 0 (some 0) = none :=
  generateGaussianNoise_zero_draw_claim.2.1 2 5 (by norm_num)

end SolidFed
